import Mathlib

/-!
Shallow embedding of the PyCPU virtual 8-bit processor.

The repository holds two generations of the emulator:
 * the packaged implementation under `src/src/python_cpu_emulator/`
   (cpu.py, utils.py, the `instructions` package, compiler.py, display.py),
   embedded below in namespace `PyCPU`;
 * a legacy prototype at the repository root (`src/cpu.py`,
   `src/instructions.py`, `src/compiler.py`, `src/utils.py`), embedded in
   namespace `PyCPU.Legacy` where a claim's sources point at it.

Python integers are unbounded, so registers and memory cells are `Nat`
and intermediate ALU values are `Int`; Python's `x & 255` on a possibly
negative integer is two's-complement bitwise AND, embedded with
Mathlib's `Int.land`.  Memory is a `List Nat`; the only unmasked memory
access in the engine is the opcode/operand fetch (`RAM[PC]`), which in
Python raises `IndexError` when `PC` is out of range, so `fetch` (and
hence `tick`) returns an `Option`.
-/

namespace PyCPU

/-- Registers dictionary of the source: `{'A': 0, 'X': 0, 'Y': 0, 'PC': 0}`. -/
structure Registers where
  A : Nat
  X : Nat
  Y : Nat
  PC : Nat
  deriving Repr, DecidableEq

/-- Flags dictionary of the source: `{'Z': .., 'O': .., 'H': .., 'N': ..}`. -/
structure Flags where
  Z : Bool
  O : Bool
  H : Bool
  N : Bool
  deriving Repr, DecidableEq

/-- `Data` type alias of the source (`list[int]`). -/
abbrev Data := List Nat

-- Flag constants from python_cpu_emulator/utils.py
def HALT_FLAGS : Flags := ⟨false, false, true, false⟩
def BLANK_FLAGS : Flags := ⟨false, false, false, false⟩
def ZERO_FLAGS : Flags := ⟨true, false, false, false⟩
def OVERFLOW_FLAGS : Flags := ⟨false, true, false, false⟩
def NEGATIVE_FLAGS : Flags := ⟨false, false, false, true⟩
def OVER_ZERO_FLAGS : Flags := ⟨true, true, false, false⟩

/-- utils.data_to_memory_location: `(data[0] << 8) + data[1]`. -/
def data_to_memory_location (data : Data) : Nat :=
  (data.getD 0 0) <<< 8 + data.getD 1 0

/-- utils.set_flags of the packaged tree (with the `value == 256` case). -/
def set_flags (value : Int) : Flags :=
  if value < 0 then NEGATIVE_FLAGS
  else if value = 0 then ZERO_FLAGS
  else if value > 255 then
    if value = 256 then OVER_ZERO_FLAGS else OVERFLOW_FLAGS
  else BLANK_FLAGS

/-- instructions/base.py `validate`: flags from the pre-truncation value,
then `value & (BYTE_SIZE - 1)` (two's-complement AND, always in 0..255). -/
def validate (value : Int) : Nat × Flags :=
  ((Int.land value 255).toNat, set_flags value)

/-- utils.next_power_of_two; the `while power < n: power <<= 1` loop is
given `n` as fuel (the power doubles, so `n` iterations always suffice). -/
def npt_loop (n : Nat) : Nat → Nat → Nat
  | 0, power => power
  | fuel + 1, power => if power < n then npt_loop n fuel (power <<< 1) else power

def next_power_of_two (n : Nat) : Nat :=
  if n &&& (n - 1) = 0 then n else npt_loop n n 1

/-- An entry of the instruction dispatch table: declared operand byte
count and the transition function.  Python's `run` mutates `ram` in
place and returns `(registers, flags)`; the embedding returns the ram. -/
structure Instruction where
  length : Nat
  run : Registers → Flags → Data → List Nat → Registers × Flags × List Nat

-- instructions/control.py

def HLT : Instruction :=
  ⟨0, fun reg _ _ ram => (reg, HALT_FLAGS, ram)⟩

def CLR : Instruction :=
  ⟨0, fun reg _ _ ram => ({ reg with A := 0, X := 0, Y := 0 }, BLANK_FLAGS, ram)⟩

def NOP : Instruction :=
  ⟨0, fun reg _ _ ram => (reg, BLANK_FLAGS, ram)⟩

def JMP : Instruction :=
  ⟨2, fun reg _ data ram => ({ reg with PC := data_to_memory_location data }, BLANK_FLAGS, ram)⟩

def JNZ : Instruction :=
  ⟨2, fun reg flags data ram =>
    (if !flags.Z then { reg with PC := data_to_memory_location data } else reg, BLANK_FLAGS, ram)⟩

def JMZ : Instruction :=
  ⟨2, fun reg flags data ram =>
    (if flags.Z then { reg with PC := data_to_memory_location data } else reg, BLANK_FLAGS, ram)⟩

def JNN : Instruction :=
  ⟨2, fun reg flags data ram =>
    (if !flags.N then { reg with PC := data_to_memory_location data } else reg, BLANK_FLAGS, ram)⟩

def JMN : Instruction :=
  ⟨2, fun reg flags data ram =>
    (if flags.N then { reg with PC := data_to_memory_location data } else reg, BLANK_FLAGS, ram)⟩

def JNO : Instruction :=
  ⟨2, fun reg flags data ram =>
    (if !flags.O then { reg with PC := data_to_memory_location data } else reg, BLANK_FLAGS, ram)⟩

def JMO : Instruction :=
  ⟨2, fun reg flags data ram =>
    (if flags.O then { reg with PC := data_to_memory_location data } else reg, BLANK_FLAGS, ram)⟩

def JFA : Instruction :=
  ⟨0, fun reg _ _ ram => ({ reg with PC := (reg.PC + reg.A) &&& (ram.length - 1) }, BLANK_FLAGS, ram)⟩

def JFX : Instruction :=
  ⟨0, fun reg _ _ ram => ({ reg with PC := (reg.PC + reg.X) &&& (ram.length - 1) }, BLANK_FLAGS, ram)⟩

def JFY : Instruction :=
  ⟨0, fun reg _ _ ram => ({ reg with PC := (reg.PC + reg.Y) &&& (ram.length - 1) }, BLANK_FLAGS, ram)⟩

def JBA : Instruction :=
  ⟨0, fun reg _ _ ram =>
    ({ reg with PC := (Int.land ((reg.PC : Int) - (reg.A : Int)) ((ram.length : Int) - 1)).toNat },
      BLANK_FLAGS, ram)⟩

def JBX : Instruction :=
  ⟨0, fun reg _ _ ram =>
    ({ reg with PC := (Int.land ((reg.PC : Int) - (reg.X : Int)) ((ram.length : Int) - 1)).toNat },
      BLANK_FLAGS, ram)⟩

def JBY : Instruction :=
  ⟨0, fun reg _ _ ram =>
    ({ reg with PC := (Int.land ((reg.PC : Int) - (reg.Y : Int)) ((ram.length : Int) - 1)).toNat },
      BLANK_FLAGS, ram)⟩

-- instructions/arithmetic.py

def AAX : Instruction :=
  ⟨0, fun reg _ _ ram =>
    let v := validate ((reg.A : Int) + (reg.X : Int))
    ({ reg with A := v.1 }, v.2, ram)⟩

def AAY : Instruction :=
  ⟨0, fun reg _ _ ram =>
    let v := validate ((reg.A : Int) + (reg.Y : Int))
    ({ reg with A := v.1 }, v.2, ram)⟩

def AXY : Instruction :=
  ⟨0, fun reg _ _ ram =>
    let v := validate ((reg.X : Int) + (reg.Y : Int))
    ({ reg with X := v.1 }, v.2, ram)⟩

def SAX : Instruction :=
  ⟨0, fun reg _ _ ram =>
    let v := validate ((reg.A : Int) - (reg.X : Int))
    ({ reg with A := v.1 }, v.2, ram)⟩

def SAY : Instruction :=
  ⟨0, fun reg _ _ ram =>
    let v := validate ((reg.A : Int) - (reg.Y : Int))
    ({ reg with A := v.1 }, v.2, ram)⟩

def SXY : Instruction :=
  ⟨0, fun reg _ _ ram =>
    let v := validate ((reg.X : Int) - (reg.Y : Int))
    ({ reg with X := v.1 }, v.2, ram)⟩

def INA : Instruction :=
  ⟨0, fun reg _ _ ram =>
    let v := validate ((reg.A : Int) + 1)
    ({ reg with A := v.1 }, v.2, ram)⟩

def INX : Instruction :=
  ⟨0, fun reg _ _ ram =>
    let v := validate ((reg.X : Int) + 1)
    ({ reg with X := v.1 }, v.2, ram)⟩

def INY : Instruction :=
  ⟨0, fun reg _ _ ram =>
    let v := validate ((reg.Y : Int) + 1)
    ({ reg with Y := v.1 }, v.2, ram)⟩

def DEA : Instruction :=
  ⟨0, fun reg _ _ ram =>
    let v := validate ((reg.A : Int) - 1)
    ({ reg with A := v.1 }, v.2, ram)⟩

def DEX : Instruction :=
  ⟨0, fun reg _ _ ram =>
    let v := validate ((reg.X : Int) - 1)
    ({ reg with X := v.1 }, v.2, ram)⟩

def DEY : Instruction :=
  ⟨0, fun reg _ _ ram =>
    let v := validate ((reg.Y : Int) - 1)
    ({ reg with Y := v.1 }, v.2, ram)⟩

-- instructions/bitwise.py

def NAX : Instruction :=
  ⟨0, fun reg _ _ ram =>
    let a := reg.A &&& reg.X
    ({ reg with A := a }, set_flags a, ram)⟩

def NAY : Instruction :=
  ⟨0, fun reg _ _ ram =>
    let a := reg.A &&& reg.Y
    ({ reg with A := a }, set_flags a, ram)⟩

def NXY : Instruction :=
  ⟨0, fun reg _ _ ram =>
    let x := reg.X &&& reg.Y
    ({ reg with X := x }, set_flags x, ram)⟩

def OAX : Instruction :=
  ⟨0, fun reg _ _ ram =>
    let a := reg.A ||| reg.X
    ({ reg with A := a }, set_flags a, ram)⟩

def OAY : Instruction :=
  ⟨0, fun reg _ _ ram =>
    let a := reg.A ||| reg.Y
    ({ reg with A := a }, set_flags a, ram)⟩

def OXY : Instruction :=
  ⟨0, fun reg _ _ ram =>
    let x := reg.X ||| reg.Y
    ({ reg with X := x }, set_flags x, ram)⟩

def XAX : Instruction :=
  ⟨0, fun reg _ _ ram =>
    let a := reg.A ^^^ reg.X
    ({ reg with A := a }, set_flags a, ram)⟩

def XAY : Instruction :=
  ⟨0, fun reg _ _ ram =>
    let a := reg.A ^^^ reg.Y
    ({ reg with A := a }, set_flags a, ram)⟩

def XXY : Instruction :=
  ⟨0, fun reg _ _ ram =>
    let x := reg.X ^^^ reg.Y
    ({ reg with X := x }, set_flags x, ram)⟩

def BLA : Instruction :=
  ⟨0, fun reg _ _ ram =>
    let v := validate ((reg.A : Int) <<< 1)
    ({ reg with A := v.1 }, v.2, ram)⟩

def BLX : Instruction :=
  ⟨0, fun reg _ _ ram =>
    let v := validate ((reg.X : Int) <<< 1)
    ({ reg with X := v.1 }, v.2, ram)⟩

def BLY : Instruction :=
  ⟨0, fun reg _ _ ram =>
    let v := validate ((reg.Y : Int) <<< 1)
    ({ reg with Y := v.1 }, v.2, ram)⟩

def BRA : Instruction :=
  ⟨0, fun reg _ _ ram =>
    let a := reg.A >>> 1
    ({ reg with A := a }, set_flags a, ram)⟩

def BRX : Instruction :=
  ⟨0, fun reg _ _ ram =>
    let x := reg.X >>> 1
    ({ reg with X := x }, set_flags x, ram)⟩

def BRY : Instruction :=
  ⟨0, fun reg _ _ ram =>
    let y := reg.Y >>> 1
    ({ reg with Y := y }, set_flags y, ram)⟩

-- instructions/comparison.py

def EAX : Instruction :=
  ⟨0, fun reg _ _ ram =>
    if reg.A ≠ reg.X then (reg, BLANK_FLAGS, ram) else (reg, set_flags 0, ram)⟩

def EAY : Instruction :=
  ⟨0, fun reg _ _ ram =>
    if reg.A ≠ reg.Y then (reg, BLANK_FLAGS, ram) else (reg, set_flags 0, ram)⟩

def EXY : Instruction :=
  ⟨0, fun reg _ _ ram =>
    if reg.X ≠ reg.Y then (reg, BLANK_FLAGS, ram) else (reg, set_flags 0, ram)⟩

-- instructions/load_store.py

def LDA : Instruction :=
  ⟨1, fun reg _ data ram => ({ reg with A := data.getD 0 0 }, BLANK_FLAGS, ram)⟩

def LDX : Instruction :=
  ⟨1, fun reg _ data ram => ({ reg with X := data.getD 0 0 }, BLANK_FLAGS, ram)⟩

def LDY : Instruction :=
  ⟨1, fun reg _ data ram => ({ reg with Y := data.getD 0 0 }, BLANK_FLAGS, ram)⟩

def CAX : Instruction :=
  ⟨0, fun reg _ _ ram => ({ reg with X := reg.A }, set_flags reg.A, ram)⟩

def CAY : Instruction :=
  ⟨0, fun reg _ _ ram => ({ reg with Y := reg.A }, set_flags reg.A, ram)⟩

def CXY : Instruction :=
  ⟨0, fun reg _ _ ram => ({ reg with Y := reg.X }, set_flags reg.X, ram)⟩

def CYX : Instruction :=
  ⟨0, fun reg _ _ ram => ({ reg with X := reg.Y }, set_flags reg.Y, ram)⟩

def CXA : Instruction :=
  ⟨0, fun reg _ _ ram => ({ reg with A := reg.X }, set_flags reg.X, ram)⟩

def CYA : Instruction :=
  ⟨0, fun reg _ _ ram => ({ reg with A := reg.Y }, set_flags reg.Y, ram)⟩

/-- The eighteen conditional immediate loads C/N register flag all share
this shape (load_store.py): load the operand into the register when the
tested flag condition holds, blank flags on both paths. -/
def condLoad (test : Flags → Bool) (store : Registers → Nat → Registers) : Instruction :=
  ⟨1, fun reg flags data ram =>
    (if test flags then store reg (data.getD 0 0) else reg, BLANK_FLAGS, ram)⟩

def setA (reg : Registers) (v : Nat) : Registers := { reg with A := v }
def setX (reg : Registers) (v : Nat) : Registers := { reg with X := v }
def setY (reg : Registers) (v : Nat) : Registers := { reg with Y := v }

def CAZ : Instruction := condLoad (fun f => f.Z) setA
def NAZ : Instruction := condLoad (fun f => !f.Z) setA
def CAO : Instruction := condLoad (fun f => f.O) setA
def NAO : Instruction := condLoad (fun f => !f.O) setA
def CAN : Instruction := condLoad (fun f => f.N) setA
def NAN : Instruction := condLoad (fun f => !f.N) setA
def CXZ : Instruction := condLoad (fun f => f.Z) setX
def NXZ : Instruction := condLoad (fun f => !f.Z) setX
def CXO : Instruction := condLoad (fun f => f.O) setX
def NXO : Instruction := condLoad (fun f => !f.O) setX
def CXN : Instruction := condLoad (fun f => f.N) setX
def NXN : Instruction := condLoad (fun f => !f.N) setX
def CYZ : Instruction := condLoad (fun f => f.Z) setY
def NYZ : Instruction := condLoad (fun f => !f.Z) setY
def CYO : Instruction := condLoad (fun f => f.O) setY
def NYO : Instruction := condLoad (fun f => !f.O) setY
def CYN : Instruction := condLoad (fun f => f.N) setY
def NYN : Instruction := condLoad (fun f => !f.N) setY

-- instructions/memory.py

def WMA : Instruction :=
  ⟨2, fun reg _ data ram =>
    let location := data_to_memory_location data &&& (ram.length - 1)
    (reg, BLANK_FLAGS, ram.set location reg.A)⟩

def WMX : Instruction :=
  ⟨2, fun reg _ data ram =>
    let location := data_to_memory_location data &&& (ram.length - 1)
    (reg, BLANK_FLAGS, ram.set location reg.X)⟩

def WMY : Instruction :=
  ⟨2, fun reg _ data ram =>
    let location := data_to_memory_location data &&& (ram.length - 1)
    (reg, BLANK_FLAGS, ram.set location reg.Y)⟩

def RMA : Instruction :=
  ⟨2, fun reg _ data ram =>
    let location := data_to_memory_location data &&& (ram.length - 1)
    ({ reg with A := ram.getD location 0 }, BLANK_FLAGS, ram)⟩

def RMX : Instruction :=
  ⟨2, fun reg _ data ram =>
    let location := data_to_memory_location data &&& (ram.length - 1)
    ({ reg with X := ram.getD location 0 }, BLANK_FLAGS, ram)⟩

def RMY : Instruction :=
  ⟨2, fun reg _ data ram =>
    let location := data_to_memory_location data &&& (ram.length - 1)
    ({ reg with Y := ram.getD location 0 }, BLANK_FLAGS, ram)⟩

def RMI : Instruction :=
  ⟨0, fun reg _ _ ram =>
    let location := (reg.Y * 256 + reg.X) &&& (ram.length - 1)
    let a := ram.getD location 0
    ({ reg with A := a }, set_flags a, ram)⟩

def WMI : Instruction :=
  ⟨0, fun reg _ _ ram =>
    let location := (reg.Y * 256 + reg.X) &&& (ram.length - 1)
    (reg, BLANK_FLAGS, ram.set location reg.A)⟩

def RMO : Instruction :=
  ⟨2, fun reg _ data ram =>
    let location := (data_to_memory_location data + reg.X) &&& (ram.length - 1)
    let a := ram.getD location 0
    ({ reg with A := a }, set_flags a, ram)⟩

def WMO : Instruction :=
  ⟨2, fun reg _ data ram =>
    let location := (data_to_memory_location data + reg.X) &&& (ram.length - 1)
    (reg, BLANK_FLAGS, ram.set location reg.A)⟩

/-- FIL's `for i in range(count)` loop; `i` is the next index, `c` the
iterations left. -/
def fil_loop (start fill_value : Nat) (i : Nat) (c : Nat) (ram : List Nat) : List Nat :=
  match c with
  | 0 => ram
  | c + 1 => fil_loop start fill_value (i + 1) c (ram.set ((start + i) &&& (ram.length - 1)) fill_value)

def FIL : Instruction :=
  ⟨1, fun reg _ data ram =>
    let start_location := (reg.Y * 256 + reg.X) &&& (ram.length - 1)
    (reg, BLANK_FLAGS, fil_loop start_location (data.getD 0 0) 0 reg.A ram)⟩

/-- CMP's loop: first mismatch yields blank flags, full match Z. -/
def cmp_loop (source_location compare_location : Nat) (i : Nat) (c : Nat) (ram : List Nat) : Flags :=
  match c with
  | 0 => ZERO_FLAGS
  | c + 1 =>
    let source_addr := (source_location + i) &&& (ram.length - 1)
    let compare_addr := (compare_location + i) &&& (ram.length - 1)
    if ram.getD source_addr 0 ≠ ram.getD compare_addr 0 then BLANK_FLAGS
    else cmp_loop source_location compare_location (i + 1) c ram

def CMP : Instruction :=
  ⟨2, fun reg _ data ram =>
    let source_location := (reg.Y * 256 + reg.X) &&& (ram.length - 1)
    let compare_location := data_to_memory_location data &&& (ram.length - 1)
    (reg, cmp_loop source_location compare_location 0 reg.A ram, ram)⟩

/-- CPY's `for i in range(count)` loop: each iteration reads the source
byte from the ram produced by the earlier iterations' writes. -/
def cpy_loop (source_location dest_location : Nat) (i : Nat) (c : Nat) (ram : List Nat) : List Nat :=
  match c with
  | 0 => ram
  | c + 1 =>
    let source_addr := (source_location + i) &&& (ram.length - 1)
    let dest_addr := (dest_location + i) &&& (ram.length - 1)
    cpy_loop source_location dest_location (i + 1) c (ram.set dest_addr (ram.getD source_addr 0))

def CPY : Instruction :=
  ⟨2, fun reg _ data ram =>
    let source_location := (reg.Y * 256 + reg.X) &&& (ram.length - 1)
    let dest_location := data_to_memory_location data &&& (ram.length - 1)
    (reg, BLANK_FLAGS, cpy_loop source_location dest_location 0 reg.A ram)⟩

/-- The packaged tree's opcode registry.  `instructions/__init__.py`
imports the instruction modules in sorted name order (arithmetic,
bitwise, comparison, control, load_store, memory); `OpcodeManager`
reserves 0/1/2 for HLT/CLR/NOP and hands out 3, 4, 5, ... to the other
classes in definition order.  The position in this list is the opcode. -/
def instrEntries : List (String × Instruction) :=
  [("HLT", HLT), ("CLR", CLR), ("NOP", NOP),
   ("AAX", AAX), ("AAY", AAY), ("AXY", AXY), ("SAX", SAX), ("SAY", SAY), ("SXY", SXY),
   ("INA", INA), ("INX", INX), ("INY", INY), ("DEA", DEA), ("DEX", DEX), ("DEY", DEY),
   ("NAX", NAX), ("NAY", NAY), ("NXY", NXY), ("OAX", OAX), ("OAY", OAY), ("OXY", OXY),
   ("XAX", XAX), ("XAY", XAY), ("XXY", XXY), ("BLA", BLA), ("BLX", BLX), ("BLY", BLY),
   ("BRA", BRA), ("BRX", BRX), ("BRY", BRY),
   ("EAX", EAX), ("EAY", EAY), ("EXY", EXY),
   ("JMP", JMP), ("JNZ", JNZ), ("JMZ", JMZ), ("JNN", JNN), ("JMN", JMN), ("JNO", JNO),
   ("JMO", JMO), ("JFA", JFA), ("JFX", JFX), ("JFY", JFY), ("JBA", JBA), ("JBX", JBX),
   ("JBY", JBY),
   ("LDA", LDA), ("LDX", LDX), ("LDY", LDY), ("CAX", CAX), ("CAY", CAY), ("CXY", CXY),
   ("CYX", CYX), ("CXA", CXA), ("CYA", CYA),
   ("CAZ", CAZ), ("NAZ", NAZ), ("CAO", CAO), ("NAO", NAO), ("CAN", CAN), ("NAN", NAN),
   ("CXZ", CXZ), ("NXZ", NXZ), ("CXO", CXO), ("NXO", NXO), ("CXN", CXN), ("NXN", NXN),
   ("CYZ", CYZ), ("NYZ", NYZ), ("CYO", CYO), ("NYO", NYO), ("CYN", CYN), ("NYN", NYN),
   ("WMA", WMA), ("WMX", WMX), ("WMY", WMY), ("RMA", RMA), ("RMX", RMX), ("RMY", RMY),
   ("RMI", RMI), ("WMI", WMI), ("RMO", RMO), ("WMO", WMO), ("FIL", FIL), ("CMP", CMP),
   ("CPY", CPY)]

/-- `NameToOpcode` of `instructions/__init__.py`. -/
def NameToOpcode (name : String) : Option Nat :=
  instrEntries.findIdx? (fun e => e.1 = name)

/-- `InstructionList[i] = InstructionSet.get(i, InstructionSet[0])`:
every opcode not bound to an instruction class falls back to HLT. -/
def InstructionList (opcode : Nat) : Instruction :=
  (instrEntries.getD opcode ("HLT", HLT)).2

/-! ## The execution engine (cpu.py of the packaged tree) -/

/-- The mutable state owned by `CPU`: registers, flags, RAM and the tick
counter.  `RAM_SIZE` of the source is `ram.length`. -/
structure CPUState where
  reg : Registers
  flags : Flags
  ram : List Nat
  ticks : Nat
  deriving Repr, DecidableEq

/-- `CPU.__init__`: clamp the KB size to 4..64, round up to a power of
two, allocate zeroed memory; registers, flags and ticks start at zero. -/
def CPU_new (ram_size : Nat) : CPUState :=
  let size := next_power_of_two (min 64 (max 4 ram_size)) * 1024
  ⟨⟨0, 0, 0, 0⟩, BLANK_FLAGS, List.replicate size 0, 0⟩

/-- `CPU.fetch`: read `RAM[PC]` (an unmasked Python list index — `none`
models the `IndexError` when `PC` is out of range), then advance
`PC ← (PC + 1) & (RAM_SIZE - 1)`. -/
def fetch (s : CPUState) : Option (Nat × CPUState) :=
  match s.ram[s.reg.PC]? with
  | some b =>
    some (b, { s with reg := { s.reg with PC := (s.reg.PC + 1) &&& (s.ram.length - 1) } })
  | none => none

/-- The operand fetches of `CPU.decode`:
`data = [self.fetch() for _ in range(instruction.length)]`. -/
def fetchN : Nat → CPUState → Option (Data × CPUState)
  | 0, s => some ([], s)
  | n + 1, s =>
    match fetch s with
    | some (b, s1) =>
      match fetchN n s1 with
      | some (bs, s2) => some (b :: bs, s2)
      | none => none
    | none => none

/-- `CPU.tick`: no-op when halted; otherwise fetch, decode (with the
HLT fallback built into `InstructionList`), fetch operands, execute and
increment the tick counter.  `none` is a Python `IndexError` fault. -/
def tick (s : CPUState) : Option CPUState :=
  if s.flags.H then some s
  else
    match fetch s with
    | none => none
    | some (opcode, s1) =>
      let instruction := InstructionList opcode
      match fetchN instruction.length s1 with
      | none => none
      | some (data, s2) =>
        let r := instruction.run s2.reg s2.flags data s2.ram
        some { reg := r.1, flags := r.2.1, ram := r.2.2, ticks := s2.ticks + 1 }

/-- `CPU.load_data`: copy `data` into RAM at `offset` when it fits
(`RAM[offset:end] = data`), otherwise raise. -/
def load_data (s : CPUState) (data : List Nat) (offset : Nat) : Except String CPUState :=
  if offset + data.length ≤ s.ram.length then
    Except.ok { s with ram := s.ram.take offset ++ data ++ s.ram.drop (offset + data.length) }
  else
    Except.error "Data exceeds RAM size"

/-! ## Helper lemmas about the address mask -/

theorem land_mask_of_lt {x k : Nat} (h : x < 2 ^ k) : x &&& (2 ^ k - 1) = x :=
  Nat.and_pow_two_sub_one_of_lt_two_pow h

theorem land_mask_lt (x k : Nat) : x &&& (2 ^ k - 1) < 2 ^ k := by
  rw [Nat.and_pow_two_sub_one_eq_mod]
  exact Nat.mod_lt _ (Nat.pos_pow_of_pos k (by decide))

theorem validate_256 : validate 256 = (0, OVER_ZERO_FLAGS) := by decide

/-! ## Claims -/

/-- C3: every ALU-style operation whose pre-truncation result is exactly
256 yields flags Z = true, O = true, H = false, N = false and stores 0 in
the destination register; in particular INA at A = 255 and AAX at
A + X = 256. -/
theorem C3_result_256_overflow_zero :
    (∀ v : Int, v = 256 →
      validate v = (0, { Z := true, O := true, H := false, N := false })) ∧
    (∀ (reg : Registers) (flags : Flags) (data : Data) (ram : List Nat), reg.A = 255 →
      (INA.run reg flags data ram).1.A = 0 ∧
      (INA.run reg flags data ram).2.1 = { Z := true, O := true, H := false, N := false }) ∧
    (∀ (reg : Registers) (flags : Flags) (data : Data) (ram : List Nat), reg.A + reg.X = 256 →
      (AAX.run reg flags data ram).1.A = 0 ∧
      (AAX.run reg flags data ram).2.1 = { Z := true, O := true, H := false, N := false }) := by
  refine ⟨fun v hv => by subst hv; exact validate_256, fun reg flags data ram hA => ?_,
    fun reg flags data ram hAX => ?_⟩
  · have h : (reg.A : Int) + 1 = 256 := by rw [hA]; decide
    simp only [INA, Instruction.run, h, validate_256]
    exact ⟨trivial, rfl⟩
  · have h : (reg.A : Int) + (reg.X : Int) = 256 := by exact_mod_cast hAX
    simp only [AAX, Instruction.run, h, validate_256]
    exact ⟨trivial, rfl⟩

/-- Witness for C3 at concrete inputs: INA from A = 255 and AAX from
A = 100, X = 156. -/
theorem C3_result_256_overflow_zero_witness :
    (INA.run ⟨255, 0, 0, 0⟩ BLANK_FLAGS [] []).1.A = 0 ∧
    (INA.run ⟨255, 0, 0, 0⟩ BLANK_FLAGS [] []).2.1 =
      { Z := true, O := true, H := false, N := false } ∧
    (AAX.run ⟨100, 156, 0, 0⟩ BLANK_FLAGS [] []).1.A = 0 := by
  obtain ⟨-, h2, h3⟩ := C3_result_256_overflow_zero
  obtain ⟨ha, hb⟩ := h2 ⟨255, 0, 0, 0⟩ BLANK_FLAGS [] [] rfl
  exact ⟨ha, hb, (h3 ⟨100, 156, 0, 0⟩ BLANK_FLAGS [] [] (by decide)).1⟩

/-- C9: writing A to a 16-bit address with WMA and then reading the same
address back with RMA (no intervening write) restores A: both resolve
the operand to the same masked memory cell. -/
theorem C9_wma_rma_roundtrip (k : Nat) (reg : Registers) (flags flags1 : Flags)
    (data : Data) (ram : List Nat) (hlen : ram.length = 2 ^ k) :
    (RMA.run (WMA.run reg flags data ram).1 flags1 data (WMA.run reg flags data ram).2.2).1.A
      = reg.A := by
  simp only [WMA, RMA, Instruction.run]
  have hloc : data_to_memory_location data &&& (ram.length - 1) < ram.length := by
    rw [hlen]; exact land_mask_lt _ _
  rw [List.length_set]
  simp only [List.getD_eq_getElem?_getD, List.getElem?_set_self hloc, Option.getD_some]

/-- Witness for C9: A = 42 round-trips through address 5 in a 16-byte
memory. -/
theorem C9_wma_rma_roundtrip_witness :
    (RMA.run (WMA.run ⟨42, 0, 0, 0⟩ BLANK_FLAGS [0, 5] (List.replicate 16 0)).1 BLANK_FLAGS
        [0, 5] (WMA.run ⟨42, 0, 0, 0⟩ BLANK_FLAGS [0, 5] (List.replicate 16 0)).2.2).1.A = 42 :=
  C9_wma_rma_roundtrip 4 ⟨42, 0, 0, 0⟩ BLANK_FLAGS BLANK_FLAGS [0, 5]
    (List.replicate 16 0) (by decide)

/-- The packaged registry defines exactly 86 opcodes (0..85). -/
theorem instrEntries_length : instrEntries.length = 86 := rfl

/-- C7: a fetched opcode byte that is not bound to a defined instruction
(the registry binds opcodes 0..85) executes exactly like HLT: one tick
sets the flags to halted-only, leaves A, X, Y and all of memory
unchanged, and the engine halts instead of raising. -/
theorem C7_undefined_opcode_hlt (s : CPUState) (opcode : Nat)
    (hH : s.flags.H = false)
    (hpc : s.reg.PC < s.ram.length)
    (hop : s.ram.getD s.reg.PC 0 = opcode)
    (hundef : 86 ≤ opcode) :
    InstructionList opcode = HLT ∧
    tick s = some { reg := { s.reg with PC := (s.reg.PC + 1) &&& (s.ram.length - 1) },
                    flags := HALT_FLAGS, ram := s.ram, ticks := s.ticks + 1 } := by
  have hinstr : InstructionList opcode = HLT := by
    unfold InstructionList
    rw [List.getD_eq_getElem?_getD, List.getElem?_eq_none (by rw [instrEntries_length]; exact hundef)]
    rfl
  refine ⟨hinstr, ?_⟩
  unfold tick
  rw [hH]
  simp only [Bool.false_eq_true, if_false]
  unfold fetch
  rw [List.getElem?_eq_getElem hpc]
  have hbyte : s.ram[s.reg.PC] = opcode := by
    rw [← hop, List.getD_eq_getElem?_getD, List.getElem?_eq_getElem hpc, Option.getD_some]
  simp only [hbyte, hinstr]
  rfl

/-- Witness for C7: opcode byte 200 in a 2-byte memory halts the engine
without touching memory. -/
theorem C7_undefined_opcode_hlt_witness :
    InstructionList 200 = HLT ∧
    tick ⟨⟨7, 8, 9, 0⟩, BLANK_FLAGS, [200, 55], 3⟩ =
      some ⟨⟨7, 8, 9, 1⟩, HALT_FLAGS, [200, 55], 4⟩ := by
  have h := C7_undefined_opcode_hlt ⟨⟨7, 8, 9, 0⟩, BLANK_FLAGS, [200, 55], 3⟩ 200
    rfl (by decide) (by decide) (by decide)
  exact ⟨h.1, h.2⟩

/-- C4: `load_data(bytes, offset)` raises exactly when
`offset + len(bytes) > MemSize` (the raise happens before any mutation,
so memory is untouched on failure); on success `mem[offset + i] = bytes[i]`
for `i < len(bytes)` and every other cell keeps its old value — no
silent wraparound past the end of memory. -/
theorem C4_load_data_bounds (s : CPUState) (data : List Nat) (offset : Nat) :
    (s.ram.length < offset + data.length →
      load_data s data offset = Except.error "Data exceeds RAM size") ∧
    (offset + data.length ≤ s.ram.length →
      ∃ s2, load_data s data offset = Except.ok s2 ∧
        s2.reg = s.reg ∧ s2.flags = s.flags ∧ s2.ticks = s.ticks ∧
        s2.ram.length = s.ram.length ∧
        (∀ i, i < data.length → s2.ram.getD (offset + i) 0 = data.getD i 0) ∧
        (∀ j, j < offset ∨ offset + data.length ≤ j → s2.ram.getD j 0 = s.ram.getD j 0)) := by
  constructor
  · intro hgt
    unfold load_data
    rw [if_neg (by omega)]
  · intro hle
    have htake : (s.ram.take offset).length = offset := by
      rw [List.length_take]; omega
    have hsplit : ∀ j, (s.ram.take offset ++ data ++ s.ram.drop (offset + data.length))[j]? =
        if offset ≤ j ∧ j < offset + data.length then data[j - offset]? else s.ram[j]? := by
      intro j
      by_cases h1 : j < offset
      · rw [if_neg (by omega),
          List.getElem?_append_left (by simp only [List.length_append, htake]; omega),
          List.getElem?_append_left (by omega), List.getElem?_take_of_lt h1]
      · by_cases h2 : j < offset + data.length
        · rw [if_pos ⟨by omega, h2⟩,
            List.getElem?_append_left (by simp only [List.length_append, htake]; omega),
            List.getElem?_append_right (by omega), htake]
        · rw [if_neg (by omega),
            List.getElem?_append_right (by simp only [List.length_append, htake]; omega),
            List.getElem?_drop]
          congr 1
          simp only [List.length_append, htake]
          omega
    refine ⟨{ s with ram := s.ram.take offset ++ data ++ s.ram.drop (offset + data.length) },
      by unfold load_data; rw [if_pos hle], rfl, rfl, rfl, ?_, ?_, ?_⟩
    · simp only [List.length_append, List.length_take, List.length_drop]
      omega
    · intro i hi
      simp only [List.getD_eq_getElem?_getD, hsplit (offset + i)]
      rw [if_pos ⟨Nat.le_add_right _ _, by omega⟩, Nat.add_sub_cancel_left]
    · intro j hj
      simp only [List.getD_eq_getElem?_getD, hsplit j]
      rw [if_neg (by omega)]

/-- Witness for C4: loading three bytes at offset 1 of a 4-byte memory
succeeds and writes cells 1..3; loading them at offset 2 fails. -/
theorem C4_load_data_bounds_witness :
    (load_data ⟨⟨0, 0, 0, 0⟩, BLANK_FLAGS, [9, 9, 9, 9], 0⟩ [1, 2, 3] 2
      = Except.error "Data exceeds RAM size") ∧
    ∃ s2, load_data ⟨⟨0, 0, 0, 0⟩, BLANK_FLAGS, [9, 9, 9, 9], 0⟩ [1, 2, 3] 1
      = Except.ok s2 ∧ s2.ram.getD 2 0 = 2 := by
  constructor
  · exact (C4_load_data_bounds ⟨⟨0, 0, 0, 0⟩, BLANK_FLAGS, [9, 9, 9, 9], 0⟩ [1, 2, 3] 2).1
      (by decide)
  · obtain ⟨s2, hok, -, -, -, -, hdata, -⟩ :=
      (C4_load_data_bounds ⟨⟨0, 0, 0, 0⟩, BLANK_FLAGS, [9, 9, 9, 9], 0⟩ [1, 2, 3] 1).2
        (by decide)
    exact ⟨s2, hok, hdata 1 (by decide)⟩

/-- One engine fetch from a fully destructured state, as an equation. -/
theorem fetch_mk (a x y pc : Nat) (flags : Flags) (ram : List Nat) (ticks : Nat)
    (h : pc < ram.length) :
    fetch ⟨⟨a, x, y, pc⟩, flags, ram, ticks⟩ =
      some (ram.getD pc 0, ⟨⟨a, x, y, (pc + 1) &&& (ram.length - 1)⟩, flags, ram, ticks⟩) := by
  unfold fetch
  rw [List.getElem?_eq_getElem h]
  simp [List.getD_eq_getElem?_getD, List.getElem?_eq_getElem h]

/-- Core of C6, for any dispatch entry behaving like a conditional
absolute jump: from a non-halted state the two operand bytes are
fetched (PC first advances by 3), the flags end blank on both paths,
and PC ends at the big-endian operand exactly when the test holds. -/
theorem condJump_tick (op : Nat) (instr : Instruction) (test : Flags → Bool)
    (k : Nat) (s : CPUState) (hi lo : Nat)
    (hinstr : InstructionList op = instr)
    (hlength : instr.length = 2)
    (hrun : ∀ reg flags data ram, instr.run reg flags data ram =
      (if test flags then { reg with PC := data_to_memory_location data } else reg,
        BLANK_FLAGS, ram))
    (hH : s.flags.H = false)
    (hlen : s.ram.length = 2 ^ k)
    (hpc : s.reg.PC + 3 < 2 ^ k)
    (hop : s.ram.getD s.reg.PC 0 = op)
    (hhi : s.ram.getD (s.reg.PC + 1) 0 = hi)
    (hlo : s.ram.getD (s.reg.PC + 2) 0 = lo) :
    tick s = some ⟨⟨s.reg.A, s.reg.X, s.reg.Y,
      if test s.flags then data_to_memory_location [hi, lo] else s.reg.PC + 3⟩,
      BLANK_FLAGS, s.ram, s.ticks + 1⟩ := by
  obtain ⟨⟨a, x, y, pc⟩, flags, ram, ticks⟩ := s
  simp only at hH hlen hpc hop hhi hlo ⊢
  have m1 : (pc + 1) &&& (ram.length - 1) = pc + 1 := by
    rw [hlen]; exact land_mask_of_lt (by omega)
  have m2 : (pc + 1 + 1) &&& (ram.length - 1) = pc + 2 := by
    rw [hlen]; exact land_mask_of_lt (by omega)
  have m3 : (pc + 2 + 1) &&& (ram.length - 1) = pc + 3 := by
    rw [hlen]; exact land_mask_of_lt (by omega)
  have f1 : fetch ⟨⟨a, x, y, pc⟩, flags, ram, ticks⟩ =
      some (op, ⟨⟨a, x, y, pc + 1⟩, flags, ram, ticks⟩) := by
    rw [fetch_mk a x y pc flags ram ticks (by rw [hlen]; omega)]
    rw [hop, m1]
  have f2 : fetch ⟨⟨a, x, y, pc + 1⟩, flags, ram, ticks⟩ =
      some (hi, ⟨⟨a, x, y, pc + 2⟩, flags, ram, ticks⟩) := by
    rw [fetch_mk a x y (pc + 1) flags ram ticks (by rw [hlen]; omega)]
    rw [hhi, m2]
  have f3 : fetch ⟨⟨a, x, y, pc + 2⟩, flags, ram, ticks⟩ =
      some (lo, ⟨⟨a, x, y, pc + 3⟩, flags, ram, ticks⟩) := by
    rw [fetch_mk a x y (pc + 2) flags ram ticks (by rw [hlen]; omega)]
    rw [hlo, m3]
  have fn : fetchN 2 ⟨⟨a, x, y, pc + 1⟩, flags, ram, ticks⟩ =
      some ([hi, lo], ⟨⟨a, x, y, pc + 3⟩, flags, ram, ticks⟩) := by
    simp only [fetchN, f2, f3]
  unfold tick
  simp only [hH, Bool.false_eq_true, if_false, f1, hinstr, hlength, fn]
  rw [hrun]
  by_cases ht : test flags
  · simp [ht]
  · simp [ht]

/-- The six conditional absolute jumps of instructions/control.py with
their opcodes and tested conditions. -/
def condJumpTable : List (Nat × Instruction × (Flags → Bool)) :=
  [(34, JNZ, fun f => !f.Z), (35, JMZ, fun f => f.Z), (36, JNN, fun f => !f.N),
   (37, JMN, fun f => f.N), (38, JNO, fun f => !f.O), (39, JMO, fun f => f.O)]

/-- C6: each of JNZ, JMZ, JNN, JMN, JNO, JMO, executed in a non-halted
state, always fetches its two operand bytes (PC passes the whole 3-byte
instruction before the transition applies), clears all four flags on
both paths, and leaves PC at the big-endian operand exactly when its
flag condition holds, otherwise at the byte after the instruction. -/
theorem C6_conditional_jumps (op : Nat) (instr : Instruction) (test : Flags → Bool)
    (hmem : (op, instr, test) ∈ condJumpTable)
    (k : Nat) (s : CPUState) (hi lo : Nat)
    (hH : s.flags.H = false)
    (hlen : s.ram.length = 2 ^ k)
    (hpc : s.reg.PC + 3 < 2 ^ k)
    (hop : s.ram.getD s.reg.PC 0 = op)
    (hhi : s.ram.getD (s.reg.PC + 1) 0 = hi)
    (hlo : s.ram.getD (s.reg.PC + 2) 0 = lo) :
    tick s = some ⟨⟨s.reg.A, s.reg.X, s.reg.Y,
      if test s.flags then data_to_memory_location [hi, lo] else s.reg.PC + 3⟩,
      BLANK_FLAGS, s.ram, s.ticks + 1⟩ := by
  simp only [condJumpTable, List.mem_cons, List.not_mem_nil, or_false,
    Prod.mk.injEq] at hmem
  rcases hmem with h | h | h | h | h | h <;> obtain ⟨rfl, rfl, rfl⟩ := h
  · exact condJump_tick 34 JNZ _ k s hi lo rfl rfl (fun _ _ _ _ => rfl)
      hH hlen hpc hop hhi hlo
  · exact condJump_tick 35 JMZ _ k s hi lo rfl rfl (fun _ _ _ _ => rfl)
      hH hlen hpc hop hhi hlo
  · exact condJump_tick 36 JNN _ k s hi lo rfl rfl (fun _ _ _ _ => rfl)
      hH hlen hpc hop hhi hlo
  · exact condJump_tick 37 JMN _ k s hi lo rfl rfl (fun _ _ _ _ => rfl)
      hH hlen hpc hop hhi hlo
  · exact condJump_tick 38 JNO _ k s hi lo rfl rfl (fun _ _ _ _ => rfl)
      hH hlen hpc hop hhi hlo
  · exact condJump_tick 39 JMO _ k s hi lo rfl rfl (fun _ _ _ _ => rfl)
      hH hlen hpc hop hhi hlo

/-- Witness for C6: in a 16-byte memory holding `JMZ $000A` at 0, the
jump is taken from a Z-set state (PC ends at 10) and, run instead from a
blank-flag state via JNZ, also lands at 10; flags end blank. -/
theorem C6_conditional_jumps_witness :
    tick ⟨⟨0, 0, 0, 0⟩, ZERO_FLAGS, [35, 0, 10, 0, 0, 0, 0, 0, 0, 0, 0, 0, 0, 0, 0, 0], 0⟩ =
      some ⟨⟨0, 0, 0, 10⟩, BLANK_FLAGS,
        [35, 0, 10, 0, 0, 0, 0, 0, 0, 0, 0, 0, 0, 0, 0, 0], 1⟩ := by
  have h := C6_conditional_jumps 35 JMZ (fun f => f.Z)
    (List.mem_cons_of_mem _ (List.mem_cons_self _ _))
    4 ⟨⟨0, 0, 0, 0⟩, ZERO_FLAGS, [35, 0, 10, 0, 0, 0, 0, 0, 0, 0, 0, 0, 0, 0, 0, 0], 0⟩
    0 10 rfl (by decide) (by decide) rfl rfl rfl
  simpa using h

/-- CPY loop frame property: with in-range unmasked addresses and
destination `src + 1`, iterations starting at index `i` never change a
cell below `src + 1 + i`. -/
theorem cpy_loop_frame (k src : Nat) :
    ∀ (c i : Nat) (ram : List Nat) (p : Nat),
      ram.length = 2 ^ k → src + 1 + i + c ≤ 2 ^ k → p < src + 1 + i →
      (cpy_loop src (src + 1) i c ram).getD p 0 = ram.getD p 0 := by
  intro c
  induction c with
  | zero => intro i ram p _ _ _; rfl
  | succ c ih =>
    intro i ram p hlen hbound hp
    have md : (src + 1 + i) &&& (ram.length - 1) = src + 1 + i := by
      rw [hlen]; exact land_mask_of_lt (by omega)
    simp only [cpy_loop, md]
    rw [ih (i + 1) _ p (by rw [List.length_set]; exact hlen) (by omega) (by omega)]
    simp only [List.getD_eq_getElem?_getD]
    rw [List.getElem?_set_ne (by omega)]

/-- CPY loop with destination `src + 1`: every cell the loop writes ends
up holding the value sitting at `src + i` when the loop starts — each
iteration reads a byte the previous iteration just wrote. -/
theorem cpy_loop_shift (k src v : Nat) :
    ∀ (c i : Nat) (ram : List Nat),
      ram.length = 2 ^ k → src + 1 + i + c ≤ 2 ^ k →
      ram.getD (src + i) 0 = v →
      ∀ j, i ≤ j → j < i + c →
        (cpy_loop src (src + 1) i c ram).getD (src + 1 + j) 0 = v := by
  intro c
  induction c with
  | zero => intro i ram _ _ _ j hij hji; omega
  | succ c ih =>
    intro i ram hlen hbound hv j hij hji
    have md : (src + 1 + i) &&& (ram.length - 1) = src + 1 + i := by
      rw [hlen]; exact land_mask_of_lt (by omega)
    have ms : (src + i) &&& (ram.length - 1) = src + i := by
      rw [hlen]; exact land_mask_of_lt (by omega)
    simp only [cpy_loop, md, ms, hv]
    by_cases hj : j = i
    · subst hj
      rw [cpy_loop_frame k src c (j + 1) _ (src + 1 + j)
        (by rw [List.length_set]; exact hlen) (by omega) (by omega)]
      simp only [List.getD_eq_getElem?_getD]
      rw [List.getElem?_set_self (by rw [hlen]; omega)]
      rfl
    · refine ih (i + 1) _ (by rw [List.length_set]; exact hlen) (by omega) ?_ j
        (by omega) (by omega)
      have hix : src + (i + 1) = src + 1 + i := by omega
      rw [hix]
      simp only [List.getD_eq_getElem?_getD]
      rw [List.getElem?_set_self (by rw [hlen]; omega)]
      rfl

/-- C10: CPY copies its A bytes in increasing index order, each
iteration reading memory after the earlier iterations' writes; with
destination = source + 1 and count A, all A destination bytes end up
equal to the original `mem[source]` — the overlap propagates the freshly
written value, not a snapshot. -/
theorem C10_cpy_overlap_propagation (k : Nat) (reg : Registers) (flags : Flags)
    (data : Data) (ram : List Nat)
    (hlen : ram.length = 2 ^ k)
    (hsrc : reg.Y * 256 + reg.X + 1 + reg.A ≤ 2 ^ k)
    (hdst : data_to_memory_location data = reg.Y * 256 + reg.X + 1) :
    ∀ j, j < reg.A →
      ((CPY.run reg flags data ram).2.2).getD (reg.Y * 256 + reg.X + 1 + j) 0 =
        ram.getD (reg.Y * 256 + reg.X) 0 := by
  intro j hj
  have hsl : (reg.Y * 256 + reg.X) &&& (ram.length - 1) = reg.Y * 256 + reg.X := by
    rw [hlen]; exact land_mask_of_lt (by omega)
  have hdl : data_to_memory_location data &&& (ram.length - 1) = reg.Y * 256 + reg.X + 1 := by
    rw [hdst, hlen]; exact land_mask_of_lt (by omega)
  simp only [CPY, Instruction.run, hsl, hdl]
  exact cpy_loop_shift k (reg.Y * 256 + reg.X) (ram.getD (reg.Y * 256 + reg.X) 0)
    reg.A 0 ram hlen (by omega) (by rw [Nat.add_zero]) j (Nat.zero_le j) (by omega)

/-- Witness for C10: copying 3 bytes from source 2 to destination 3 in a
16-byte memory whose cell 2 holds 7 leaves cells 3, 4, 5 all equal 7. -/
theorem C10_cpy_overlap_propagation_witness :
    ((CPY.run ⟨3, 2, 0, 0⟩ BLANK_FLAGS [0, 3]
        [0, 0, 7, 1, 2, 3, 0, 0, 0, 0, 0, 0, 0, 0, 0, 0]).2.2).getD 5 0 = 7 := by
  have h := C10_cpy_overlap_propagation 4 ⟨3, 2, 0, 0⟩ BLANK_FLAGS [0, 3]
    [0, 0, 7, 1, 2, 3, 0, 0, 0, 0, 0, 0, 0, 0, 0, 0] (by decide) (by decide) (by decide)
    2 (by decide)
  simpa using h

/-! ## Legacy prototype (repository root: src/compiler.py) -/

namespace Legacy

/-- The legacy instruction registry of src/instructions.py: `iota()`
assigns opcodes in class-definition order; the position in this list is
the opcode, the entry carries the declared operand byte count. -/
def instrTable : List (String × Nat) :=
  [("HLT", 0), ("CLR", 0), ("NOP", 0), ("LDA", 1), ("LDX", 1), ("LDY", 1),
   ("WMA", 2), ("WMX", 2), ("WMY", 2), ("RMA", 2), ("RMX", 2), ("RMY", 2),
   ("AAX", 0), ("AAY", 0), ("AXY", 0), ("SAX", 0), ("SAY", 0), ("SXY", 0),
   ("CAX", 0), ("CAY", 0), ("CXY", 0), ("CYX", 0), ("CXA", 0), ("CYA", 0),
   ("JMP", 2), ("JNZ", 2), ("JMZ", 2), ("JNN", 2), ("JMN", 2), ("JNO", 2), ("JMO", 2),
   ("INA", 0), ("INX", 0), ("INY", 0), ("DEA", 0), ("DEX", 0), ("DEY", 0),
   ("EAX", 0), ("EAY", 0), ("EXY", 0),
   ("NAX", 0), ("NAY", 0), ("NXY", 0), ("OAX", 0), ("OAY", 0), ("OXY", 0),
   ("XAX", 0), ("XAY", 0), ("XXY", 0),
   ("BLA", 0), ("BLX", 0), ("BLY", 0), ("BRA", 0), ("BRX", 0), ("BRY", 0),
   ("JFA", 0), ("JFX", 0), ("JFY", 0), ("JBA", 0), ("JBX", 0), ("JBY", 0)]

def NameToOpcode (name : String) : Option Nat :=
  instrTable.findIdx? (fun e => e.1 = name)

def lengthOf (opcode : Nat) : Nat := (instrTable.getD opcode ("HLT", 0)).2

/-- Python `s.startswith(c)` for a one-character prefix, phrased on the
underlying character list so that it evaluates by reduction. -/
def startsWithChar (c : Char) (s : String) : Bool :=
  match s.data with
  | [] => false
  | d :: _ => d = c

/-- Python `s[1:]`. -/
def dropOne (s : String) : String := String.mk (s.data.drop 1)

def hexDigit (c : Char) : Option Nat :=
  if c.isDigit then some (c.toNat - 48)
  else if c ≥ 'a' ∧ c ≤ 'f' then some (c.toNat - 87)
  else if c ≥ 'A' ∧ c ≤ 'F' then some (c.toNat - 55)
  else none

/-- Python `int(s, 16)` restricted to plain hex digit strings. -/
def parse_hex (s : String) : Option Nat :=
  if s.data.length = 0 then none
  else s.data.foldl (fun acc c => acc.bind (fun a => (hexDigit c).map (fun d => a * 16 + d)))
    (some 0)

/-- Python `s.isdigit()` (ASCII digits) for nonempty strings. -/
def is_digit_str (s : String) : Bool := s.data.length > 0 && s.data.all Char.isDigit

/-- Python `int(s)` for digit strings. -/
def str_to_nat (s : String) : Nat :=
  s.data.foldl (fun acc c => acc * 10 + (c.toNat - 48)) 0

/-- compiler.addr_to_ints: `$`-prefixed 16-bit hex address to (hi, lo). -/
def addr_to_ints (addr : String) : Except String (Nat × Nat) :=
  if ¬ startsWithChar '$' addr then Except.error "Invalid address format"
  else match parse_hex (dropOne addr) with
    | none => Except.error "Invalid address"
    | some int_addr =>
      if 0xFFFF < int_addr then Except.error "Address out of range"
      else Except.ok ((int_addr >>> 8) &&& 0xFF, int_addr &&& 0x00FF)

/-- compiler.int_to_addr. -/
def int_to_addr (value : Nat) : Nat × Nat := ((value >>> 8) &&& 0xFF, value &&& 0x00FF)

/-- The argument loop of parse_code: `$hex` emits two bytes, a decimal
literal emits itself, a known label emits its (hi, lo) offset. -/
def parse_args (labels : List (String × Nat)) : List String → List Int →
    Except String (List Int)
  | [], out => Except.ok out
  | arg :: rest, out =>
    if startsWithChar '$' arg then
      match addr_to_ints arg with
      | Except.error e => Except.error e
      | Except.ok (high, low) => parse_args labels rest (out ++ [(high : Int), (low : Int)])
    else if is_digit_str arg then
      parse_args labels rest (out ++ [(str_to_nat arg : Int)])
    else if startsWithChar '-' arg ∧ is_digit_str (dropOne arg) then
      parse_args labels rest (out ++ [-(str_to_nat (dropOne arg) : Int)])
    else
      match labels.lookup arg with
      | some v =>
        let p := int_to_addr v
        parse_args labels rest (out ++ [(p.1 : Int), (p.2 : Int)])
      | none => Except.error "Invalid argument"

/-- compiler.parse_code over comment-stripped, whitespace-split lines.
A `:label` line records `label → len(parsed_instructions)` — the byte
length of everything emitted so far — after a duplicate check; other
lines emit the opcode byte and their argument bytes (an argument-count
mismatch is forgiven when the first argument is a known label). -/
def parse_code_loop : List (List String) → List (String × Nat) → List Int →
    Except String (List Int)
  | [], _, out => Except.ok out
  | parts :: rest, labels, out =>
    let head := parts.getD 0 ""
    if startsWithChar ':' head then
      let label := dropOne head
      if (labels.lookup label).isSome then Except.error "Duplicate label found"
      else parse_code_loop rest ((label, out.length) :: labels) out
    else
      match NameToOpcode head with
      | none => Except.error "Unknown opcode"
      | some opcode =>
        if parts.length ≠ lengthOf opcode + 1 ∧ (labels.lookup (parts.getD 1 "")).isNone then
          Except.error "Incorrect number of arguments"
        else
          match parse_args labels (parts.drop 1) (out ++ [(opcode : Int)]) with
          | Except.error e => Except.error e
          | Except.ok out2 => parse_code_loop rest labels out2

def parse_code (lines : List (List String)) : Except String (List Int) :=
  parse_code_loop lines [] []

end Legacy

/-! ## Packaged compiler (src/src/python_cpu_emulator/compiler.py),
embedded at the parsed-line level: the input is the stream of
label/instruction lines the Lexer produces for the plain (macro-free,
constant-free) fragment of the dialect. -/

namespace Comp

/-- A parameter as returned by Parser.parse_value: numeric literals
(decimal, hex, char) become integers; an identifier not yet in the
symbol table stays a string. -/
inductive Param where
  | int (n : Int)
  | ident (s : String)
  deriving Repr, DecidableEq

/-- A source line of the plain fragment: a `:label` line or an
instruction with argument tokens. -/
inductive PLine where
  | label (name : String)
  | instr (name : String) (params : List Param)

/-- Parser.parse_value symbol substitution: an identifier present in
the symbol table is replaced by its integer value at parse time. -/
def resolve_param (symbols : List (String × Nat)) : Param → Param
  | Param.int n => Param.int n
  | Param.ident s =>
    match symbols.lookup s with
    | some v => Param.int v
    | none => Param.ident s

/-- Parser.validate_instruction_parameters. -/
def validate_instruction_parameters (name : String) (params : List Param) :
    Except String Unit :=
  match NameToOpcode name with
  | none => Except.error "Unknown instruction"
  | some opcode =>
    let expected_length := (InstructionList opcode).length
    if expected_length = 2 then
      if params.length ≠ 1 then Except.error "expects 1 address parameter"
      else match params.getD 0 (Param.int 0) with
        | Param.int p =>
          if 0 ≤ p ∧ p ≤ 65535 then Except.ok () else Except.error "must be 0-65535"
        | Param.ident _ => Except.ok ()
    else if expected_length = 1 then
      if params.length ≠ 1 then Except.error "expects 1 parameter"
      else match params.getD 0 (Param.int 0) with
        | Param.int p =>
          if 0 ≤ p ∧ p ≤ 255 then Except.ok () else Except.error "must be 0-255"
        | Param.ident _ => Except.ok ()
    else
      if params.length ≠ 0 then Except.error "expects no parameters" else Except.ok ()

/-- The Parser state that matters to the plain fragment: the symbol
table (label symbols) and the parsed instruction list.  Python dicts
overwrite on assignment; the cons-and-first-match association list has
the same lookup behaviour. -/
structure ParserState where
  symbols : List (String × Nat)
  instructions : List (String × List Param)

/-- Parser.parse_label: record `name → len(self.instructions)` — the
index of the next instruction, with no duplicate check. -/
def parse_label (name : String) (st : ParserState) : ParserState :=
  { st with symbols := (name, st.instructions.length) :: st.symbols }

/-- Parser.parse_instruction: resolve parameters against the current
symbol table, validate, append. -/
def parse_instruction (name : String) (params : List Param) (st : ParserState) :
    Except String ParserState :=
  let resolved := params.map (resolve_param st.symbols)
  match validate_instruction_parameters name resolved with
  | Except.error e => Except.error e
  | Except.ok _ =>
    Except.ok { st with instructions := st.instructions ++ [(name, resolved)] }

/-- Parser.parse, second pass, on the plain fragment. -/
def parse_loop : List PLine → ParserState → Except String ParserState
  | [], st => Except.ok st
  | PLine.label name :: rest, st => parse_loop rest (parse_label name st)
  | PLine.instr name params :: rest, st =>
    match parse_instruction name params st with
    | Except.error e => Except.error e
    | Except.ok st2 => parse_loop rest st2

/-- CodeGenerator.resolve_label_addresses: remaining identifier
parameters naming a label symbol become that symbol's value. -/
def resolve_label_addresses (symbols : List (String × Nat))
    (instructions : List (String × List Param)) : List (String × List Param) :=
  instructions.map (fun i => (i.1, i.2.map (resolve_param symbols)))

/-- CodeGenerator.generate: emit the opcode byte, then a lone parameter
of a 2-operand instruction as big-endian (hi, lo), any other integer
parameter as a single byte; an unresolved identifier raises. -/
def generate_loop : List (String × List Param) → List Int → Except String (List Int)
  | [], out => Except.ok out
  | (name, params) :: rest, out =>
    match NameToOpcode name with
    | none => Except.error "Unknown instruction"
    | some opcode =>
      let instruction_length := (InstructionList opcode).length
      let bytes : Except String (List Int) :=
        params.foldl (fun acc p =>
          match acc, p with
          | Except.error e, _ => Except.error e
          | Except.ok bs, Param.int n =>
            if instruction_length = 2 ∧ params.length = 1 then
              Except.ok (bs ++ [(((n.toNat >>> 8) &&& 0xFF : Nat) : Int), (((n.toNat) &&& 0xFF : Nat) : Int)])
            else
              Except.ok (bs ++ [(((n.toNat) &&& 0xFF : Nat) : Int)])
          | Except.ok _, Param.ident _ => Except.error "Unresolved symbol")
          (Except.ok [])
      match bytes with
      | Except.error e => Except.error e
      | Except.ok bs => generate_loop rest (out ++ [(opcode : Int)] ++ bs)

/-- AdvancedCompiler.compile_source on the plain fragment: parse, then
resolve labels and generate machine code. -/
def compile (lines : List PLine) : Except String (List Int) :=
  match parse_loop lines ⟨[], []⟩ with
  | Except.error e => Except.error e
  | Except.ok st =>
    generate_loop (resolve_label_addresses st.symbols st.instructions) []

end Comp

instance {ε α : Type} [DecidableEq ε] [DecidableEq α] : DecidableEq (Except ε α)
  | Except.error a, Except.error b =>
    if h : a = b then isTrue (by rw [h])
    else isFalse (fun he => h (Except.error.injEq a b ▸ he))
  | Except.error _, Except.ok _ => isFalse (fun he => Except.noConfusion he)
  | Except.ok _, Except.error _ => isFalse (fun he => Except.noConfusion he)
  | Except.ok a, Except.ok b =>
    if h : a = b then isTrue (by rw [h])
    else isFalse (fun he => h (Except.ok.injEq a b ▸ he))

/-- C2: the legacy assembler maps a label to the byte offset of the next
emitted instruction — `:L / LDA 1 / JMP L` compiles to the five bytes
`[op(LDA), 1, op(JMP), 0x00, 0x00]` and a label after `LDA 1` resolves
to byte offset 2 — but the packaged compiler records
`len(self.instructions)` instead, so the same label resolves to
instruction index 1, not byte offset 2. -/
theorem C2_label_offset_vs_index :
    Legacy.parse_code [[":L"], ["LDA", "1"], ["JMP", "L"]] = Except.ok [3, 1, 24, 0, 0] ∧
    Legacy.parse_code [["LDA", "1"], [":L"], ["JMP", "L"]] = Except.ok [3, 1, 24, 0, 2] ∧
    Comp.compile [Comp.PLine.instr "LDA" [Comp.Param.int 1], Comp.PLine.label "L",
      Comp.PLine.instr "JMP" [Comp.Param.ident "L"]] = Except.ok [46, 1, 33, 0, 1] ∧
    ([46, 1, 33, 0, 1] : List Int) ≠ [46, 1, 33, 0, 2] := by
  refine ⟨by decide, by decide, by decide, by decide⟩

/-- C5: the legacy assembler rejects a twice-defined label with a
duplicate-label error before emitting anything, but the packaged
compiler accepts the same source, silently keeps only the second
definition and emits a byte stream. -/
theorem C5_duplicate_label :
    Legacy.parse_code [[":L"], ["NOP"], [":L"], ["JMP", "L"]] =
      Except.error "Duplicate label found" ∧
    Comp.compile [Comp.PLine.label "L", Comp.PLine.instr "NOP" [], Comp.PLine.label "L",
      Comp.PLine.instr "JMP" [Comp.Param.ident "L"]] = Except.ok [2, 33, 0, 1] := by
  exact ⟨by decide, by decide⟩

/-- fetch raises (Python IndexError) when PC is outside memory. -/
theorem fetch_none (s : CPUState) (h : s.ram.length ≤ s.reg.PC) : fetch s = none := by
  unfold fetch
  rw [List.getElem?_eq_none h]

/-- A non-halted tick from a state whose PC is outside memory faults. -/
theorem tick_fault (s : CPUState) (hH : s.flags.H = false)
    (h : s.ram.length ≤ s.reg.PC) : tick s = none := by
  unfold tick
  rw [hH]
  simp only [Bool.false_eq_true, if_false, fetch_none s h]

/-- One whole non-faulting tick, assembled from its fetch equations. -/
theorem tick_step (s : CPUState) (hH : s.flags.H = false) (b : Nat) (s1 : CPUState)
    (hf : fetch s = some (b, s1)) (data : Data) (s2 : CPUState)
    (hfn : fetchN (InstructionList b).length s1 = some (data, s2)) :
    tick s = some ⟨((InstructionList b).run s2.reg s2.flags data s2.ram).1,
      ((InstructionList b).run s2.reg s2.flags data s2.ram).2.1,
      ((InstructionList b).run s2.reg s2.flags data s2.ram).2.2, s2.ticks + 1⟩ := by
  unfold tick
  rw [hH]
  simp only [Bool.false_eq_true, if_false, hf, hfn]

/-- C1 (claim refuted by the code): on a legally constructed 4 KB engine
(MemSize = 4096 < 65536), `JMP $1000` stores the raw 16-bit operand 4096
into PC without the `& (MemSize-1)` mask, so the rest point after the
tick has PC = 4096 ∉ [0, MemSize), and the next fetch indexes outside
memory — the engine faults instead of wrapping. -/
theorem C1_jmp_unmasked_fault :
    ∃ s0 s1,
      load_data (CPU_new 4) [33, 16, 0] 0 = Except.ok s0 ∧
      s0.ram.length = 4096 ∧
      InstructionList 33 = JMP ∧
      tick s0 = some s1 ∧
      s1.reg.PC = 4096 ∧ s1.ram.length = 4096 ∧ ¬ s1.reg.PC < s1.ram.length ∧
      tick s1 = none := by
  have hcpu : CPU_new 4 = ⟨⟨0, 0, 0, 0⟩, BLANK_FLAGS, List.replicate 4096 0, 0⟩ := rfl
  have hlen : ([33, 16, 0] ++ List.replicate 4093 (0 : Nat)).length = 4096 := by
    rw [List.length_append, List.length_replicate]; rfl
  refine ⟨⟨⟨0, 0, 0, 0⟩, BLANK_FLAGS, [33, 16, 0] ++ List.replicate 4093 0, 0⟩,
    ⟨⟨0, 0, 0, 4096⟩, BLANK_FLAGS, [33, 16, 0] ++ List.replicate 4093 0, 1⟩,
    ?_, hlen, rfl, ?_, rfl, hlen, by rw [hlen]; decide, ?_⟩
  · rw [hcpu]
    unfold load_data
    rw [if_pos (by rw [List.length_replicate]; decide)]
    rfl
  · have f1 : fetch ⟨⟨0, 0, 0, 0⟩, BLANK_FLAGS, [33, 16, 0] ++ List.replicate 4093 0, 0⟩ =
        some (33, ⟨⟨0, 0, 0, 1⟩, BLANK_FLAGS, [33, 16, 0] ++ List.replicate 4093 0, 0⟩) := by
      rw [fetch_mk 0 0 0 0 BLANK_FLAGS _ 0 (by rw [hlen]; decide), hlen]; rfl
    have f2 : fetch ⟨⟨0, 0, 0, 1⟩, BLANK_FLAGS, [33, 16, 0] ++ List.replicate 4093 0, 0⟩ =
        some (16, ⟨⟨0, 0, 0, 2⟩, BLANK_FLAGS, [33, 16, 0] ++ List.replicate 4093 0, 0⟩) := by
      rw [fetch_mk 0 0 0 1 BLANK_FLAGS _ 0 (by rw [hlen]; decide), hlen]; rfl
    have f3 : fetch ⟨⟨0, 0, 0, 2⟩, BLANK_FLAGS, [33, 16, 0] ++ List.replicate 4093 0, 0⟩ =
        some (0, ⟨⟨0, 0, 0, 3⟩, BLANK_FLAGS, [33, 16, 0] ++ List.replicate 4093 0, 0⟩) := by
      rw [fetch_mk 0 0 0 2 BLANK_FLAGS _ 0 (by rw [hlen]; decide), hlen]; rfl
    have fn : fetchN 2 ⟨⟨0, 0, 0, 1⟩, BLANK_FLAGS, [33, 16, 0] ++ List.replicate 4093 0, 0⟩ =
        some ([16, 0], ⟨⟨0, 0, 0, 3⟩, BLANK_FLAGS, [33, 16, 0] ++ List.replicate 4093 0, 0⟩) := by
      simp only [fetchN, f2, f3]
    exact (tick_step _ rfl 33 _ f1 [16, 0] _ fn).trans rfl
  · apply tick_fault _ rfl
    rw [hlen]

/-! ## Display adapter (src/src/python_cpu_emulator/display.py).
Wall-clock instants are rationals; Python's float `1.0 / fps` interval
is modelled as the exact rational `1 / fps`. -/

/-- Display state: fixed grid, frame interval, and the frame clock. -/
structure Display where
  WIDTH : Nat
  HEIGHT : Nat
  FPS : Nat
  interval : ℚ
  last_drawn : ℚ
  deriving Repr, DecidableEq

/-- Display.__init__ with the source defaults width=80, height=50,
fps=120, last_drawn=0.0. -/
def Display.new (width height fps : Nat) : Display :=
  ⟨width, height, fps, 1 / (fps : ℚ), 0⟩

/-- Display.__len__. -/
def Display.len (d : Display) : Nat := d.WIDTH * d.HEIGHT

/-- Display.should_draw — defined in the source but called from
nowhere. -/
def should_draw (d : Display) (now : ℚ) : Bool :=
  if now - d.last_drawn < d.interval then false else true

/-- Display.draw at wall-clock instant `now`: assert the framebuffer
length (`none` models the assertion failure), then unconditionally set
`last_drawn = now` and render the H×W character grid. -/
def draw (d : Display) (now : ℚ) (data : List Nat) : Option (Display × List String) :=
  if data.length = Display.len d then
    some ({ d with last_drawn := now },
      (List.range d.HEIGHT).map (fun h =>
        String.mk ((List.range d.WIDTH).map (fun w =>
          Char.ofNat (data.getD (h * d.WIDTH + w) 0)))))
  else none

/-- C8 (claim refuted by the code): `draw` never consults the frame
clock — called 1/240 s after the previous frame (less than the 1/120 s
interval of the default FPS=120 display), it still renders and
overwrites `last_drawn` with the current time, even though
`should_draw` would have said to skip. -/
theorem C8_draw_no_throttle :
    ((100 : ℚ) + 1 / 240) - 100 < (Display.new 80 50 120).interval ∧
    should_draw { Display.new 80 50 120 with last_drawn := 100 } (100 + 1 / 240) = false ∧
    (draw { Display.new 80 50 120 with last_drawn := 100 } (100 + 1 / 240)
        (List.replicate 4000 0)).map (fun p => p.1.last_drawn) = some (100 + 1 / 240) ∧
    (draw { Display.new 80 50 120 with last_drawn := 100 } (100 + 1 / 240)
        (List.replicate 4000 0)).isSome = true := by
  refine ⟨by norm_num [Display.new], by norm_num [should_draw, Display.new], ?_, ?_⟩
  · rw [draw, if_pos (by rw [List.length_replicate]; rfl)]
    norm_num
  · rw [draw, if_pos (by rw [List.length_replicate]; rfl)]
    rfl

end PyCPU

